import Mathlib

/-!
Verification of `peak/cli/options.py` (PEAK-Legacy/CLI-Tools): a declarative
command-line option framework.  Option descriptors (`Set`, `Add`, `Append`,
`Handler`) are registered into a per-class registry with inheritance and
suppression semantics, and `make_parser` renders the merged registry into an
ordered, grouped parser over an external argument-scanning primitive
(`optparse`).

The embedding below translates the source functions of `options.py` directly.
Parts that live outside this repository (the `addons.Registry` base-class
merge, and the `optparse` scanning/help primitive) are modelled from the
specification's contracts and carry doc comments saying so.

Conventions:
* Python machine-level objects are modelled by `PyVal`; `None`-able strings by
  `Option String`; Python exceptions by `PyErr`; fallible code by `Except`.
* Python object identity of descriptors is modelled by structural equality:
  every descriptor carries the globally unique creation counter `sort_stable`
  produced by `_gen_key`, so two structurally equal descriptors are the same
  object.
* Registries and attribute dictionaries are association lists.
-/

namespace Peak

open scoped List

/-- Python exceptions raised by the code under verification.
`invocationError` is the repository's `InvocationError`; `typeError` and
`valueError` are the construction-time errors the spec groups as
`ConfigurationError`; `systemExit` is `SystemExit`; `attributeError` is
`AttributeError` (e.g. `.append` on an object without that method). -/
inductive PyErr where
  | invocationError (msg : String)
  | typeError (msg : String)
  | valueError (msg : String)
  | attributeError
  | systemExit (status : Int)
deriving DecidableEq, Repr

/-- The spec's ConfigurationError taxonomy: descriptor-construction failures
(`TypeError` / `ValueError` raised in `AbstractOption.__init__`). -/
def PyErr.isConfigurationError : PyErr → Bool
  | .typeError _ => true
  | .valueError _ => true
  | _ => false

/-- Python runtime values stored into target attributes by callbacks. -/
inductive PyVal where
  | str (s : String)
  | int (n : Int)
  | bool (b : Bool)
  | pynone
deriving DecidableEq, Repr

/-- The type converters the embedding tracks (`type=int`, `type=str`).
`int(text)` fails with `ValueError` on non-numeric text; `str` always
succeeds.  Applying `int` to a non-string (`None`) is a `TypeError`, which
`AbstractOption.convert` does not catch. -/
inductive Conv where
  | cint
  | cstr
deriving DecidableEq, Repr

/-- `type.__name__` of the converter, used for the default metavar. -/
def Conv.pyName : Conv → String
  | .cint => "int"
  | .cstr => "str"

/-! String helpers.  They implement the Python string operations the source
uses, over the character list of the string (so that theorems can evaluate
them on concrete inputs). -/

/-- Python `s.startswith(pre)`. -/
def pyStartsWith (s pre : String) : Bool := pre.data.isPrefixOf s.data

/-- Python `s.strip()`: remove leading and trailing whitespace. -/
def pyStrip (s : String) : String :=
  String.mk
    (((s.data.dropWhile Char.isWhitespace).reverse.dropWhile Char.isWhitespace).reverse)

/-- Python `s.upper()`. -/
def pyUpper (s : String) : String := String.mk (s.data.map Char.toUpper)

/-- Python `s[n:]` (the source only slices ASCII program-name markers). -/
def pySliceFrom (s : String) (n : Nat) : String := String.mk (s.data.drop n)

/-- Accumulate a decimal digit run; `none` on the first non-digit. -/
def digitsVal (acc : Nat) : List Char → Option Nat
  | [] => some acc
  | c :: cs =>
    if c.isDigit then digitsVal (acc * 10 + (c.toNat - '0'.toNat)) cs
    else none

/-- Python `int(s)` on a string: optional surrounding whitespace, optional
sign, at least one decimal digit; `none` models the `ValueError` raise. -/
def pyInt (s : String) : Option Int :=
  match (pyStrip s).data with
  | [] => none
  | '-' :: [] => none
  | '-' :: c :: cs => (digitsVal 0 (c :: cs)).map (fun n => -(n : Int))
  | '+' :: [] => none
  | '+' :: c :: cs => (digitsVal 0 (c :: cs)).map (fun n => (n : Int))
  | cs => (digitsVal 0 cs).map (fun n => (n : Int))

/-- Apply the converter to the raw callback value (a string, or Python
`None` for zero-arity options). -/
def Conv.apply : Conv → Option String → Except PyErr PyVal
  | .cint, some s =>
    match pyInt s with
    | some n => .ok (.int n)
    | none => .error (.valueError ("invalid literal for int(): " ++ s))
  | .cint, none => .error (.typeError "int() argument must be a string or a number")
  | .cstr, some s => .ok (.str s)
  | .cstr, none => .ok (.str "None")

/-- `options.Group`: a titled heading under which related options are
displayed.  `sort_stable` is the `_gen_key()` creation counter. -/
structure Group where
  title : String
  description : Option String
  sortKey : Int
  sort_stable : Nat
deriving DecidableEq, Repr

/-- The concrete subclass of `AbstractOption` a descriptor was built from. -/
inductive OptVariant where
  | set
  | add
  | append
  | handler
deriving DecidableEq, Repr

/-- Class-level default of the `repeatable` attribute:
`Set.repeatable = False`, `Handler.repeatable = False`, the base class
default `True` for `Add` and `Append`. -/
def OptVariant.defaultRepeatable : OptVariant → Bool
  | .set => false
  | .add => true
  | .append => true
  | .handler => false

/-- A fully constructed option descriptor (instance of an `AbstractOption`
subclass).  `sort_stable` is the unique `_gen_key()` creation counter, which
also models Python object identity. -/
structure AbstractOption where
  variant : OptVariant
  option_names : List String
  repeatable : Bool
  value : Option PyVal
  type : Option Conv
  metavar : Option String
  help : Option String
  group : Option Group
  sortKey : Int
  nargs : Nat
  sort_stable : Nat
deriving DecidableEq, Repr

/-- Keyword arguments accepted by `AbstractOption.__init__` (each one
overrides the corresponding class attribute; `none` means the keyword was
not supplied, so `value`/`type` stay `NOT_GIVEN` and the others keep the
class defaults). -/
structure OptKw where
  repeatable : Option Bool := none
  sortKey : Option Int := none
  metavar : Option String := none
  help : Option String := none
  group : Option Group := none
  value : Option PyVal := none
  type : Option Conv := none
deriving Repr

/-- `AbstractOption.__init__`: validates the option names (at least one,
each beginning with `-` and not with `---`), requires exactly one of a fixed
`value` or a `type` converter, rejects `metavar` without `type`, derives
`nargs` and the default metavar, and stamps the creation counter `key`. -/
def makeAbstractOption (klass : OptVariant) (option_names : List String)
    (kw : OptKw) (key : Nat) : Except PyErr AbstractOption :=
  if option_names.isEmpty then
    .error (.typeError "options must have at least one option name")
  else
    match option_names.find? (fun o => !(pyStartsWith o "-") || pyStartsWith o "---") with
    | some bad =>
      .error (.valueError ("Invalid option name " ++ bad ++
        ": option names must begin with - or --"))
    | none =>
      if kw.type.isNone == kw.value.isNone then
        .error (.typeError "options must have a value or a type, not both or neither")
      else if kw.type.isNone && kw.metavar.isSome then
        .error (.typeError "metavar is meaningless for options without a type")
      else
        .ok {
          variant := klass
          option_names := option_names
          repeatable := kw.repeatable.getD klass.defaultRepeatable
          value := kw.value
          type := kw.type
          metavar :=
            match kw.type with
            | some c => some (kw.metavar.getD (pyUpper c.pyName))
            | none => kw.metavar
          help := kw.help
          group := kw.group
          sortKey := kw.sortKey.getD 0
          nargs := if kw.type.isSome then 1 else 0
          sort_stable := key
        }

/-- `"%s" % self.metavar` as used in the conversion error message
(`None` renders as the string `"None"`). -/
def AbstractOption.metavarStr (d : AbstractOption) : String :=
  d.metavar.getD "None"

/-- Python `repr` of the raw callback value (`%r` in the error message). -/
def pyReprRaw : Option String → String
  | some s => "'" ++ s ++ "'"
  | none => "None"

/-- `AbstractOption.convert`: return the fixed `value` unconditionally when
one was configured; otherwise apply the `type` converter to the raw text,
turning a `ValueError` into an `InvocationError` naming the option, the
invalid text and the metavar.  `optionStr` is `"%s" % option`, optparse's
rendering of the matched option object. -/
def AbstractOption.convert (d : AbstractOption) (optionStr : String)
    (value : Option String) : Except PyErr PyVal :=
  match d.value with
  | none =>
    match d.type with
    | some c =>
      match c.apply value with
      | .ok v => .ok v
      | .error (.valueError _) =>
        .error (.invocationError
          (optionStr ++ ": " ++ pyReprRaw value ++ " is not a valid " ++ d.metavarStr))
      | .error e => .error e
    | none => .error (.typeError "NOT_GIVEN is not callable")
  | some v => .ok v

/-- Update-or-insert into a Python dict modelled as an association list:
the assignment `dict[k] = v`. -/
def updAssoc {κ β : Type} [DecidableEq κ] (l : List (κ × β)) (k : κ) (v : β) :
    List (κ × β) :=
  if l.any (fun p => decide (p.1 = k)) then
    l.map (fun p => if p.1 = k then (p.1, v) else p)
  else
    l ++ [(k, v)]

/-- Dict lookup `dict.get(k)`. -/
def lookupAssoc {κ β : Type} [DecidableEq κ] (l : List (κ × β)) (k : κ) : Option β :=
  (l.find? (fun p => decide (p.1 = k))).map Prod.snd

/-- The per-parse mutable state: the lazily created `parser.use_counts`
dictionary keyed by descriptor identity. -/
structure ParserState where
  use_counts : List (AbstractOption × Nat)
deriving DecidableEq, Repr

/-- `parser.use_counts.setdefault(self, 0)` — current count for `d`. -/
def lookupCount (l : List (AbstractOption × Nat)) (d : AbstractOption) : Nat :=
  (lookupAssoc l d).getD 0

/-- `parser.use_counts[self] = n` — store the count for `d`. -/
def setCount (l : List (AbstractOption × Nat)) (d : AbstractOption) (n : Nat) :
    List (AbstractOption × Nat) :=
  updAssoc l d n

/-- `AbstractOption.check_repeat`: for a non-repeatable descriptor, bump its
per-parser use count and fail with `InvocationError` on the second use. -/
def AbstractOption.check_repeat (d : AbstractOption) (optionStr : String)
    (st : ParserState) : Except PyErr ParserState :=
  if !d.repeatable then
    let count := lookupCount st.use_counts d + 1
    let st' : ParserState := ⟨setCount st.use_counts d count⟩
    if count > 1 then
      .error (.invocationError (optionStr ++ " can only be used once"))
    else
      .ok st'
  else
    .ok st

/-- A registry entry: `(attribute_name, descriptor)`; `(none, none)` is the
suppression sentinel `(None, None)`. -/
abbrev RegEntry := Option String × Option AbstractOption

/-- `OptionsRegistry` contents, as an ordered association list
(Python-2 dict with unique keys, in a fixed deterministic order). -/
abbrev Registry := List (String × RegEntry)

/-- Dict assignment `r[k] = v`: replace the entry for `k`, or append it. -/
def rset (r : Registry) (k : String) (v : RegEntry) : Registry :=
  updAssoc r k v

/-- Dict lookup `r.get(k)`. -/
def rlookup (r : Registry) (k : String) : Option RegEntry :=
  lookupAssoc r k

/-- Dict keys. -/
def rkeys (r : Registry) : List String := r.map Prod.fst

/-- `r.update(s)`: assign every entry of `s` into `r`, in order. -/
def rupdate (r s : Registry) : Registry :=
  s.foldl (fun acc p => rset acc p.1 p.2) r

/-- `AbstractOption.register(registry, attrname)`: insert
`(attrname, self)` under every one of the descriptor's option names. -/
def AbstractOption.register (d : AbstractOption) (r : Registry)
    (attrname : Option String) : Registry :=
  d.option_names.foldl (fun acc n => rset acc n (attrname, some d)) r

/-- `reject_inheritance(*names)` with explicit names: set each named option
to the suppression sentinel in the class's own registry. -/
def reject_inheritance (r : Registry) (names : List String) : Registry :=
  names.foldl (fun acc n => rset acc n (none, none)) r

/-- Modelled from the spec: the base-class merge performed by
`addons.Registry.created_for` (the `peak.util.addons` dependency is not part
of this repository).  Per spec section 4.2, it "populates a fresh registry
for `class` by copying entries from each base class's registry (most general
first, so most-derived overwrites), then applying that class's own
declarations".  `baseRegs` is given most-general-first. -/
def inheritedView (own : Registry) (baseRegs : List Registry) : Registry :=
  rupdate (baseRegs.foldl rupdate []) own

/-- `OptionsRegistry.created_for` (options.py lines 18-25): remember the
class's own declarations (`old = dict(self)`), perform the base-class merge,
and, if the class requested blanket inheritance rejection, overwrite every
key that was not declared by the class itself with the suppression sentinel
`(None, None)`. -/
def OptionsRegistry.created_for (reject_all_inheritance : Bool)
    (own : Registry) (baseRegs : List Registry) : Registry :=
  let old := own
  let merged := inheritedView own baseRegs
  if reject_all_inheritance then
    merged.map (fun p => if p.1 ∈ rkeys old then p else (p.1, (none, none)))
  else
    merged

/-- The option specification handed to the scanning primitive
(`optparse.make_option(...)`): surviving aliases, arity, the callback
closure `(self, attrname)`, and display metadata. -/
structure ParserOpt where
  aliases : List String
  nargs : Nat
  attrname : Option String
  desc : AbstractOption
  metavar : Option String
  help : Option String
deriving DecidableEq, Repr

/-- `"%s" % option` for an optparse option: short aliases then long aliases,
joined by `/`. -/
def ParserOpt.optString (po : ParserOpt) : String :=
  "/".intercalate
    (po.aliases.filter (fun a => !pyStartsWith a "--") ++
     po.aliases.filter (fun a => pyStartsWith a "--"))

/-- The `optmap` dict comprehension of `make_parser` (line 411):
`dict([(k,opt) for k,(a,opt) in optinfo if opt is not None]).get(n)`. -/
def optmapGet (optinfo : Registry) (n : String) : Option AbstractOption :=
  optinfo.foldl (fun acc p => if p.2.2.isSome && p.1 == n then p.2.2 else acc) none

/-- `AbstractOption.makeOption(attrname, optmap)`: keep only the aliases the
merged view still maps to this very descriptor, and build the parser option
keyed by `(sortKey, sort_stable)`. -/
def AbstractOption.makeOption (d : AbstractOption) (attrname : Option String)
    (om : String → Option AbstractOption) : (Int × Nat) × ParserOpt :=
  ((d.sortKey, d.sort_stable),
   { aliases := d.option_names.filter (fun o => decide (om o = some d))
     nargs := d.nargs
     attrname := attrname
     desc := d
     metavar := d.metavar
     help := d.help })

/-- One bucket per group: `optlists.setdefault(option.group, []).append(x)`. -/
def addToBucket (optlists : List (Option Group × List ((Int × Nat) × ParserOpt)))
    (g : Option Group) (x : (Int × Nat) × ParserOpt) :
    List (Option Group × List ((Int × Nat) × ParserOpt)) :=
  if optlists.any (fun p => decide (p.1 = g)) then
    optlists.map (fun p => if p.1 = g then (p.1, p.2 ++ [x]) else p)
  else
    optlists ++ [(g, [x])]

/-- The option-assembly loop of `make_parser` (lines 412-420): walk the
merged registry view, skip suppressed names and descriptors already emitted
(`optsused`), and append `option.makeOption(attrname, optmap)` to the bucket
of the descriptor's group. -/
def buildLists (om : String → Option AbstractOption) :
    Registry → List AbstractOption →
    List (Option Group × List ((Int × Nat) × ParserOpt)) →
    List (Option Group × List ((Int × Nat) × ParserOpt))
  | [], _, acc => acc
  | (_, (_, none)) :: rest, used, acc => buildLists om rest used acc
  | (_, (attrname, some d)) :: rest, used, acc =>
    if d ∈ used then
      buildLists om rest used acc
    else
      buildLists om rest (used ++ [d]) (addToBucket acc d.group (d.makeOption attrname om))

/-- Ascending lexicographic order on the `(sortKey, creation_order)` keys. -/
def keyLE (a b : Int × Nat) : Bool :=
  a.1 < b.1 || (a.1 == b.1 && a.2 ≤ b.2)

/-- `optlist.sort()`: Python compares the `(key, option)` tuples, but keys
contain the globally unique creation counter, so the order is decided by the
key alone. -/
def itemLE (a b : (Int × Nat) × ParserOpt) : Bool := keyLE a.1 b.1

/-- `groups.sort()`: likewise decided by the group key alone. -/
def grpLE (a b : (Int × Nat) × (Group × List ParserOpt)) : Bool := keyLE a.1 b.1

/-- Insert into a sorted list (used to model Python's stable ascending
`list.sort()`; with a reflexive `le` the earlier element stays first among
equals, preserving stability). -/
def insertSorted {α : Type} (le : α → α → Bool) (x : α) : List α → List α
  | [] => [x]
  | y :: ys => if le x y then x :: y :: ys else y :: insertSorted le x ys

/-- Python `list.sort()` as an insertion sort. -/
def sortByLE {α : Type} (le : α → α → Bool) (l : List α) : List α :=
  l.foldr (insertSorted le) []

/-- The synthesized parser that `make_parser` returns: the configuration it
was built with, the ungrouped options added directly to the parser (in
order), and the option groups (each with its own ordered options) in the
order they were added. -/
structure SynthParser where
  prog : String
  intersperse : Bool
  parser_options : List ParserOpt
  groups : List (Group × List ParserOpt)
deriving DecidableEq, Repr

/-- The `_exit_parser` closure installed as `parser.exit` (lines 392-398).
`prog` is the captured `kw['prog'] + ':'` marker.  A truthy message raises
`InvocationError` with the program-name marker stripped and whitespace
trimmed; otherwise a nonzero status raises `SystemExit(status)`; otherwise
the call returns normally. -/
def exitParser (prog : String) (status : Int) (msg : Option String) :
    Except PyErr Unit :=
  match msg with
  | some m =>
    if m ≠ "" then
      .error (.invocationError
        (pyStrip (if pyStartsWith m prog then pySliceFrom m prog.length else m)))
    else if status ≠ 0 then .error (.systemExit status)
    else .ok ()
  | none =>
    if status ≠ 0 then .error (.systemExit status)
    else .ok ()

/-- `make_parser` (lines 370-438), minus the external `OptionParser`
plumbing: build the buckets from the merged registry view, sort each bucket
by `(sortKey, creation_order)`, attach the ungrouped bucket directly to the
parser, and add the groups sorted by their own `(sortKey, creation_order)`.
`prog` is the raw `prog` keyword (default `''`). -/
def makeParser (optinfo : Registry) (prog : String) (intersperse : Bool) :
    SynthParser :=
  let om := optmapGet optinfo
  let optlists := buildLists om optinfo [] []
  let processed := optlists.map (fun p => (p.1, (sortByLE itemLE p.2).map Prod.snd))
  let parser_options :=
    (processed.filterMap (fun p => if p.1.isNone then some p.2 else none)).flatten
  let groups0 := processed.filterMap (fun p =>
    p.1.map (fun g => ((g.sortKey, g.sort_stable), (g, p.2))))
  { prog := prog
    intersperse := intersperse
    parser_options := parser_options
    groups := (sortByLE grpLE groups0).map Prod.snd }

/-- All option specifications known to the parser: the ungrouped ones (which
optparse renders first, directly on the parser) followed by each group's
options in group order. -/
def allPopts (p : SynthParser) : List ParserOpt :=
  p.parser_options ++ (p.groups.map Prod.snd).flatten

/-- Modelled from the spec: `get_help` returns the parser's rendered help,
which lists ungrouped options directly on the parser and grouped options
under their headings in the established order; an option name is mentioned
in that text exactly when it is among some rendered option's aliases. -/
def renderedAliases (p : SynthParser) : List (List String) :=
  (allPopts p).map (fun po => po.aliases)

/-- Whether the rendered help mentions the option name `name`. -/
def getHelpMentions (p : SynthParser) (name : String) : Bool :=
  (allPopts p).any (fun po => decide (name ∈ po.aliases))

/-- A value bound to a target attribute: either a scalar or a Python list
(the only objects the embedded callbacks store or mutate). -/
inductive Attr where
  | scalar (v : PyVal)
  | pylist (l : List PyVal)
deriving DecidableEq, Repr

/-- The target object's attribute dictionary (`parser.values` is the target
object itself, since `parse` calls `parser.parse_args(args, ob)`). -/
abbrev Target := List (String × Attr)

/-- `getattr(target, a)` (without default): `none` models the missing
attribute, where bare `getattr` raises `AttributeError`. -/
def getattrT (t : Target) (a : String) : Option Attr :=
  lookupAssoc t a

/-- `setattr(target, a, v)`. -/
def setattrT (t : Target) (a : String) (v : Attr) : Target :=
  updAssoc t a v

/-- Python `+` on the accumulating attribute of an `Add` option: numeric or
string accumulation (spec section 4.1); anything else is a `TypeError`. -/
def pyAdd : Attr → PyVal → Option Attr
  | .scalar (.int a), .int b => some (.scalar (.int (a + b)))
  | .scalar (.str a), .str b => some (.scalar (.str (a ++ b)))
  | _, _ => none

/-- The per-variant `callback(option, opt, value, parser, attrname)` bodies
(options.py lines 288-327), dispatched on the descriptor's class.

* `Set`: repeat-check, then `setattr(parser.values, attrname, convert(...))`.
* `Add`: repeat-check, then `getattr` (raising `AttributeError` when the
  attribute is missing), then `convert`, then `+` (`TypeError` when the
  operands do not support it).
* `Append`: repeat-check, then
  `getattr(parser.values, attrname, value).append(convert(option, value))` —
  Python evaluates the callable before its argument, so the `getattr` (whose
  default is the raw argument value itself) and the `.append` attribute
  lookup happen first: when the attribute is missing or not a list, the
  `.append` lookup raises `AttributeError` (strings and `None` have no
  `append`) before `convert` ever runs, and the attribute is never created;
  when the attribute holds a list, `convert` runs and that list is extended
  in place.
* `Handler`: repeat-check, then `convert`; the registered handler function's
  own effects are outside this embedding.

A non-string attribute name (`None`, from `option_handler` registrations)
makes `setattr`/`getattr` raise `TypeError`. -/
def invokeCallback (po : ParserOpt) (value : Option String) (tgt : Target)
    (st : ParserState) : Except PyErr (Target × ParserState) :=
  let d := po.desc
  let os := ParserOpt.optString po
  match d.variant with
  | .set =>
    match d.check_repeat os st with
    | .error e => .error e
    | .ok st' =>
      match d.convert os value with
      | .error e => .error e
      | .ok v =>
        match po.attrname with
        | some a => .ok (setattrT tgt a (.scalar v), st')
        | none => .error (.typeError "attribute name must be string")
  | .add =>
    match d.check_repeat os st with
    | .error e => .error e
    | .ok st' =>
      match po.attrname with
      | none => .error (.typeError "attribute name must be string")
      | some a =>
        match getattrT tgt a with
        | none => .error .attributeError
        | some old =>
          match d.convert os value with
          | .error e => .error e
          | .ok v =>
            match pyAdd old v with
            | some newv => .ok (setattrT tgt a newv, st')
            | none => .error (.typeError "unsupported operand type(s) for +")
  | .append =>
    match d.check_repeat os st with
    | .error e => .error e
    | .ok st' =>
      match po.attrname with
      | none => .error (.typeError "attribute name must be string")
      | some a =>
        match getattrT tgt a with
        | some (.pylist l) =>
          match d.convert os value with
          | .error e => .error e
          | .ok v => .ok (setattrT tgt a (.pylist (l ++ [v])), st')
        | some (.scalar _) => .error .attributeError
        | none => .error .attributeError
  | .handler =>
    match d.check_repeat os st with
    | .error e => .error e
    | .ok st' =>
      match d.convert os value with
      | .error e => .error e
      | .ok _ => .ok (tgt, st')

/-- The scanning primitive's error reporting: `parser.error(msg)` calls
`self.exit(2, "%s: error: %s\n" % (self.get_prog_name(), msg))`, which the
synthesizer has rerouted through `_exit_parser`; with the default empty
`prog` this yields `InvocationError("error: " ++ msg)`. -/
def SynthParser.reportError (p : SynthParser) (msg : String) : PyErr :=
  match exitParser (p.prog ++ ":") 2 (some (p.prog ++ ": error: " ++ msg ++ "\n")) with
  | .error e => e
  | .ok _ => .invocationError msg

/-- Split a character list at the first `=`. -/
def splitEqChars : List Char → Option (List Char × List Char)
  | [] => none
  | c :: cs =>
    if c = '=' then some ([], cs)
    else (splitEqChars cs).map (fun p => (c :: p.1, p.2))

/-- `"--name=value"` splitting for long options (the `--name=value` form of
the spec's scanning contract, section 6). -/
def splitTok (tok : String) : String × Option String :=
  if pyStartsWith tok "--" then
    match splitEqChars tok.data with
    | some (k, v) => (String.mk k, some (String.mk v))
    | none => (tok, none)
  else
    (tok, none)

/-- First parser option one of whose aliases is `tok`. -/
def findAlias (popts : List ParserOpt) (tok : String) : Option ParserOpt :=
  popts.find? (fun po => decide (tok ∈ po.aliases))

/-- Modelled from the spec: the external argument-scanning primitive
(section 6) — scan left-to-right; a token matching an option alias (exact,
or the `--name=value` form) invokes the option's callback with the raw
argument text; an unrecognized token beginning with `-` is reported through
the parser's error path; a non-option token ends the option scan when
interspersion is disabled (the default), otherwise it is collected and the
scan continues.  Returns the mutated target and the leftover non-option
arguments. -/
def scanArgs (p : SynthParser) :
    List String → Target → ParserState → Except PyErr (Target × List String)
  | [], tgt, _ => .ok (tgt, [])
  | tok :: rest, tgt, st =>
    let popts := allPopts p
    let (optTok, inlineVal) := splitTok tok
    match findAlias popts optTok with
    | some po =>
      if po.nargs == 0 then
        match inlineVal with
        | some _ => .error (p.reportError (optTok ++ " option does not take a value"))
        | none =>
          match invokeCallback po none tgt st with
          | .error e => .error e
          | .ok (tgt', st') => scanArgs p rest tgt' st'
      else
        match inlineVal with
        | some v =>
          match invokeCallback po (some v) tgt st with
          | .error e => .error e
          | .ok (tgt', st') => scanArgs p rest tgt' st'
        | none =>
          match rest with
          | [] => .error (p.reportError (optTok ++ " option requires an argument"))
          | v :: rest' =>
            match invokeCallback po (some v) tgt st with
            | .error e => .error e
            | .ok (tgt', st') => scanArgs p rest' tgt' st'
    | none =>
      if pyStartsWith optTok "-" && optTok != "-" then
        .error (p.reportError ("no such option: " ++ optTok))
      else if p.intersperse then
        match scanArgs p rest tgt st with
        | .error e => .error e
        | .ok (tgt', leftover) => .ok (tgt', tok :: leftover)
      else
        .ok (tgt, tok :: rest)

/-- `parse(ob, args, **kw)` (lines 329-343): build the parser for the merged
registry view of the target's class and scan `args` against it.  Each call
allocates a fresh parser, so the repeat-check state starts empty.  Returns
the mutated target together with the leftover non-option arguments. -/
def parse (optinfo : Registry) (prog : String) (intersperse : Bool)
    (args : List String) (tgt : Target) : Except PyErr (Target × List String) :=
  scanArgs (makeParser optinfo prog intersperse) args tgt ⟨[]⟩

/-! ### Concrete scenarios used by the claims

Creation counters (`_gen_key`) are assigned in declaration order, so every
descriptor and group below has a distinct `sort_stable`. -/

/-- `Set('-v', '--verbose', value=True)` declared by class `A` (key 1). -/
def dVerbose : AbstractOption :=
  { variant := .set, option_names := ["-v", "--verbose"], repeatable := false
    value := some (.bool true), type := none, metavar := none, help := none
    group := none, sortKey := 0, nargs := 0, sort_stable := 1 }

/-- `Set('--fast', value=True)` declared by class `C` (key 2). -/
def dFast : AbstractOption :=
  { variant := .set, option_names := ["--fast"], repeatable := false
    value := some (.bool true), type := none, metavar := none, help := none
    group := none, sortKey := 0, nargs := 0, sort_stable := 2 }

/-- `Group("Five", sortKey=5)`, created before `gOne` (key 3). -/
def gFive : Group := { title := "Five", description := none, sortKey := 5, sort_stable := 3 }

/-- `Group("One", sortKey=1)` (key 4). -/
def gOne : Group := { title := "One", description := none, sortKey := 1, sort_stable := 4 }

/-- `Set('--five', value=True, group=gFive)` (key 5). -/
def dFive : AbstractOption :=
  { variant := .set, option_names := ["--five"], repeatable := false
    value := some (.bool true), type := none, metavar := none, help := none
    group := some gFive, sortKey := 0, nargs := 0, sort_stable := 5 }

/-- `Set('--one', value=True, group=gOne)` (key 6). -/
def dOne : AbstractOption :=
  { variant := .set, option_names := ["--one"], repeatable := false
    value := some (.bool true), type := none, metavar := none, help := none
    group := some gOne, sortKey := 0, nargs := 0, sort_stable := 6 }

/-- `Set('--loose', value=True)`, ungrouped (key 7). -/
def dLoose : AbstractOption :=
  { variant := .set, option_names := ["--loose"], repeatable := false
    value := some (.bool true), type := none, metavar := none, help := none
    group := none, sortKey := 0, nargs := 0, sort_stable := 7 }

/-- `Set('--db', type=str)` (key 8). -/
def dDb : AbstractOption :=
  { variant := .set, option_names := ["--db"], repeatable := false
    value := none, type := some .cstr, metavar := some "STR", help := none
    group := none, sortKey := 0, nargs := 1, sort_stable := 8 }

/-- `Append('--db', type=str)` (key 9). -/
def dDbApp : AbstractOption :=
  { variant := .append, option_names := ["--db"], repeatable := true
    value := none, type := some .cstr, metavar := some "STR", help := none
    group := none, sortKey := 0, nargs := 1, sort_stable := 9 }

/-- `Set('--port', type=int)` (key 10). -/
def dPort : AbstractOption :=
  { variant := .set, option_names := ["--port"], repeatable := false
    value := none, type := some .cint, metavar := some "INT", help := none
    group := none, sortKey := 0, nargs := 1, sort_stable := 10 }

/-- `Set('--name', type=str)` (key 11). -/
def dName : AbstractOption :=
  { variant := .set, option_names := ["--name"], repeatable := false
    value := none, type := some .cstr, metavar := some "STR", help := none
    group := none, sortKey := 0, nargs := 1, sort_stable := 11 }

/-- Class `A`'s registry: `attributes(verbose=dVerbose)`, no bases. -/
def regA : Registry :=
  OptionsRegistry.created_for false (dVerbose.register [] (some "verbose")) []

/-- Class `B`'s own declarations: `reject_inheritance('--verbose')`. -/
def regBOwn : Registry := reject_inheritance [] ["--verbose"]

/-- Class `B`'s merged registry view (`B` inherits from `A`). -/
def regB : Registry := OptionsRegistry.created_for false regBOwn [regA]

/-- Class `C`'s own declarations: `attributes(fast=dFast)` together with a
blanket `reject_inheritance()`. -/
def regCOwn : Registry := dFast.register [] (some "fast")

/-- Class `C`'s merged registry view (`C` inherits from `A`, rejecting all
inherited options). -/
def regC : Registry := OptionsRegistry.created_for true regCOwn [regA]

/-- Registry for the grouping scenario: two groups with sort keys 5 and 1
plus an ungrouped option. -/
def regGroups : Registry :=
  OptionsRegistry.created_for false
    (dLoose.register (dOne.register (dFive.register [] (some "five")) (some "one"))
      (some "loose")) []

/-- Registry with the `Set`-typed `--db` option. -/
def regDbSet : Registry :=
  OptionsRegistry.created_for false (dDb.register [] (some "db")) []

/-- Registry with the `Append`-typed `--db` option. -/
def regDbApp : Registry :=
  OptionsRegistry.created_for false (dDbApp.register [] (some "db")) []

/-- Registry with the integer-typed `--port` option. -/
def regPort : Registry :=
  OptionsRegistry.created_for false (dPort.register [] (some "port")) []

/-- Registry with the string-typed `--name` option. -/
def regName : Registry :=
  OptionsRegistry.created_for false (dName.register [] (some "name")) []

/-! ### The scenario descriptors are the constructor's output -/

theorem dVerbose_constructed :
    makeAbstractOption .set ["-v", "--verbose"] { value := some (.bool true) } 1 =
      .ok dVerbose := rfl

theorem dFast_constructed :
    makeAbstractOption .set ["--fast"] { value := some (.bool true) } 2 = .ok dFast := rfl

theorem dFive_constructed :
    makeAbstractOption .set ["--five"] { value := some (.bool true), group := some gFive } 5 =
      .ok dFive := rfl

theorem dOne_constructed :
    makeAbstractOption .set ["--one"] { value := some (.bool true), group := some gOne } 6 =
      .ok dOne := rfl

theorem dLoose_constructed :
    makeAbstractOption .set ["--loose"] { value := some (.bool true) } 7 = .ok dLoose := rfl

theorem dDb_constructed :
    makeAbstractOption .set ["--db"] { type := some .cstr } 8 = .ok dDb := rfl

theorem dDbApp_constructed :
    makeAbstractOption .append ["--db"] { type := some .cstr } 9 = .ok dDbApp := rfl

theorem dPort_constructed :
    makeAbstractOption .set ["--port"] { type := some .cint } 10 = .ok dPort := rfl

theorem dName_constructed :
    makeAbstractOption .set ["--name"] { type := some .cstr } 11 = .ok dName := rfl

/-! ### Association-list (Python dict) lemmas -/

theorem lookupAssoc_cons {κ β : Type} [DecidableEq κ] (hd : κ × β)
    (tl : List (κ × β)) (k : κ) :
    lookupAssoc (hd :: tl) k = if hd.1 = k then some hd.2 else lookupAssoc tl k := by
  by_cases h : hd.1 = k <;> simp [lookupAssoc, List.find?_cons, h]

theorem find?_map_replace_self {κ β : Type} [DecidableEq κ] (k : κ) (v : β) :
    ∀ l : List (κ × β), l.any (fun p => decide (p.1 = k)) = true →
    (l.map (fun p => if p.1 = k then (p.1, v) else p)).find?
        (fun p => decide (p.1 = k)) = some (k, v) := by
  intro l
  induction l with
  | nil => simp
  | cons hd tl ih =>
    intro h
    by_cases hk : hd.1 = k
    · simp [List.find?_cons, hk]
    · simp only [List.any_cons, decide_eq_true_eq, hk, Bool.false_or] at h
      simp [List.find?_cons, hk, ih h]

theorem lookupAssoc_map_replace_ne {κ β : Type} [DecidableEq κ] (k k' : κ) (v : β)
    (hne : k' ≠ k) :
    ∀ l : List (κ × β),
    lookupAssoc (l.map (fun p => if p.1 = k then (p.1, v) else p)) k' =
      lookupAssoc l k' := by
  intro l
  induction l with
  | nil => rfl
  | cons hd tl ih =>
    rw [List.map_cons, lookupAssoc_cons, lookupAssoc_cons]
    have hfst : ((if hd.1 = k then (hd.1, v) else hd) : κ × β).1 = hd.1 := by
      by_cases hk : hd.1 = k <;> simp [hk]
    simp only [hfst]
    by_cases hk2 : hd.1 = k'
    · have hk : hd.1 ≠ k := by rw [hk2]; exact hne
      rw [if_pos hk2, if_pos hk2, if_neg hk]
    · rw [if_neg hk2, if_neg hk2]
      exact ih

theorem lookupAssoc_updAssoc_self {κ β : Type} [DecidableEq κ]
    (l : List (κ × β)) (k : κ) (v : β) :
    lookupAssoc (updAssoc l k v) k = some v := by
  unfold updAssoc
  split
  case isTrue h =>
    unfold lookupAssoc
    rw [find?_map_replace_self k v l h]
    rfl
  case isFalse h =>
    unfold lookupAssoc
    rw [List.find?_append]
    have hnone : l.find? (fun p => decide (p.1 = k)) = none := by
      rw [List.find?_eq_none]
      intro x hx
      simp only [decide_eq_true_eq]
      intro hxk
      exact h (List.any_eq_true.mpr ⟨x, hx, by simp [hxk]⟩)
    simp [hnone]

theorem lookupAssoc_updAssoc_ne {κ β : Type} [DecidableEq κ]
    (l : List (κ × β)) (k k' : κ) (v : β) (hne : k' ≠ k) :
    lookupAssoc (updAssoc l k v) k' = lookupAssoc l k' := by
  unfold updAssoc
  split
  case isTrue h => exact lookupAssoc_map_replace_ne k k' v hne l
  case isFalse h =>
    unfold lookupAssoc
    rw [List.find?_append]
    have hkk : ¬(k = k') := fun hx => hne hx.symm
    have : List.find? (fun p => decide (p.1 = k')) [(k, v)] = none := by
      simp [List.find?_cons, hkk]
    simp [this]

theorem mem_rkeys_iff {r : Registry} {k : String} :
    k ∈ rkeys r ↔ (rlookup r k).isSome := by
  induction r with
  | nil => simp [rkeys, rlookup, lookupAssoc]
  | cons hd tl ih =>
    by_cases h : hd.1 = k
    · simp [rkeys, rlookup, lookupAssoc_cons, h]
    · simp only [rkeys, List.map_cons, List.mem_cons] at ih ⊢
      rw [rlookup, lookupAssoc_cons, if_neg h]
      simp [Ne.symm h, ih, rkeys, rlookup]

/-! ### Registry merge lemmas -/

theorem rlookup_rset_self (r : Registry) (k : String) (v : RegEntry) :
    rlookup (rset r k v) k = some v :=
  lookupAssoc_updAssoc_self r k v

theorem rlookup_rset_ne (r : Registry) (k k' : String) (v : RegEntry)
    (h : k' ≠ k) : rlookup (rset r k v) k' = rlookup r k' :=
  lookupAssoc_updAssoc_ne r k k' v h

theorem rlookup_cons (hd : String × RegEntry) (tl : Registry) (k : String) :
    rlookup (hd :: tl) k = if hd.1 = k then some hd.2 else rlookup tl k :=
  lookupAssoc_cons hd tl k

/-- `rupdate r s` looks entries up in `s` first (its assignments win), then
falls back to `r`, provided the keys of `s` are distinct. -/
theorem rlookup_rupdate (r s : Registry) (k : String) (h : (rkeys s).Nodup) :
    rlookup (rupdate r s) k = (rlookup s k).or (rlookup r k) := by
  induction s generalizing r with
  | nil => simp [rupdate, rlookup, lookupAssoc]
  | cons hd tl ih =>
    have h' : (hd.1 :: rkeys tl).Nodup := by simpa [rkeys] using h
    have hmem : hd.1 ∉ rkeys tl := (List.nodup_cons.mp h').1
    have hnd : (rkeys tl).Nodup := (List.nodup_cons.mp h').2
    show rlookup (rupdate (rset r hd.1 hd.2) tl) k = _
    rw [ih (rset r hd.1 hd.2) hnd, rlookup_cons]
    by_cases hk : hd.1 = k
    · subst hk
      have htl : rlookup tl hd.1 = none := by
        cases hcase : rlookup tl hd.1 with
        | none => rfl
        | some w =>
          exact absurd (mem_rkeys_iff.mpr (by rw [hcase]; rfl)) hmem
      rw [htl, rlookup_rset_self, if_pos rfl]
      rfl
    · rw [rlookup_rset_ne r hd.1 k hd.2 (fun hx => hk hx.symm), if_neg hk]

theorem rkeys_map_suppress (l : Registry) (ks : List String) :
    rkeys (l.map (fun p => if p.1 ∈ ks then p else (p.1, (none, none)))) =
      rkeys l := by
  induction l with
  | nil => rfl
  | cons hd tl ih =>
    by_cases h : hd.1 ∈ ks <;>
      simp only [rkeys, List.map_cons, h, if_pos, if_neg, ite_true, ite_false] <;>
      simp only [rkeys] at ih <;> rw [ih]

theorem rlookup_map_suppress (l : Registry) (ks : List String) (k : String) :
    rlookup (l.map (fun p => if p.1 ∈ ks then p else (p.1, (none, none)))) k =
      (rlookup l k).map (fun v => if k ∈ ks then v else (none, none)) := by
  induction l with
  | nil => rfl
  | cons hd tl ih =>
    have hfst :
        ((if hd.1 ∈ ks then hd else (hd.1, (none, none))) : String × RegEntry).1 =
          hd.1 := by
      by_cases h : hd.1 ∈ ks <;> simp [h]
    rw [List.map_cons, rlookup_cons, rlookup_cons]
    simp only [hfst]
    by_cases hk : hd.1 = k
    · rw [if_pos hk, if_pos hk]
      subst hk
      by_cases h2 : hd.1 ∈ ks <;> simp [h2]
    · rw [if_neg hk, if_neg hk]
      exact ih

/-! ### Claim theorems -/

/-- Claim C2: blanket inheritance rejection maps every option name that is
inherited (present in the merged view) but not declared by the class itself
to the suppression sentinel `(None, None)`, while the class's own
declarations still apply; concretely, `C` (blanket rejection plus its own
`--fast`) renders only `--fast` in its help, with `A`'s `-v`/`--verbose`
gone. -/
theorem claim_C2_blanket_rejection :
    (∀ (own : Registry) (bases : List Registry) (k : String),
      (rkeys own).Nodup →
      (∀ v, rlookup own k = some v →
        rlookup (OptionsRegistry.created_for true own bases) k = some v) ∧
      (rlookup own k = none →
        k ∈ rkeys (OptionsRegistry.created_for true own bases) →
        rlookup (OptionsRegistry.created_for true own bases) k =
          some (none, none))) ∧
    renderedAliases (makeParser regC "" false) = [["--fast"]] ∧
    getHelpMentions (makeParser regC "" false) "--fast" = true ∧
    getHelpMentions (makeParser regC "" false) "--verbose" = false ∧
    getHelpMentions (makeParser regC "" false) "-v" = false := by
  refine ⟨?_, rfl, rfl, rfl, rfl⟩
  intro own bases k hnd
  have hcf : OptionsRegistry.created_for true own bases =
      (inheritedView own bases).map
        (fun p => if p.1 ∈ rkeys own then p else (p.1, (none, none))) := rfl
  constructor
  · intro v hv
    have hmem : k ∈ rkeys own := mem_rkeys_iff.mpr (by rw [hv]; rfl)
    have hbase : rlookup (inheritedView own bases) k = some v := by
      unfold inheritedView
      rw [rlookup_rupdate _ _ _ hnd, hv]
      rfl
    rw [hcf, rlookup_map_suppress, hbase]
    simp [hmem]
  · intro hv hk
    rw [hcf, rkeys_map_suppress] at hk
    obtain ⟨w, hw⟩ := Option.isSome_iff_exists.mp (mem_rkeys_iff.mp hk)
    have hnmem : k ∉ rkeys own := by
      intro hmem
      have hs := mem_rkeys_iff.mp hmem
      rw [hv] at hs
      simp at hs
    rw [hcf, rlookup_map_suppress, hw]
    simp [hnmem]

/-- Witness for C2 at a concrete input: `C`'s merged view maps the inherited
`--verbose` to the sentinel and keeps its own `--fast` entry. -/
theorem claim_C2_blanket_rejection_witness :
    rlookup (OptionsRegistry.created_for true regCOwn [regA]) "--verbose" =
      some (none, none) ∧
    rlookup (OptionsRegistry.created_for true regCOwn [regA]) "--fast" =
      some (some "fast", some dFast) := by
  constructor
  · exact ((claim_C2_blanket_rejection.1 regCOwn [regA] "--verbose"
      (by decide)).2) (by rfl) (by decide)
  · exact ((claim_C2_blanket_rejection.1 regCOwn [regA] "--fast"
      (by decide)).1) (some "fast", some dFast) (by rfl)

/-- Claim C4: the parser's overridden error-exit raises `InvocationError`
for every message-carrying exit (after stripping the leading program-name
marker), never a process-termination signal; an exit with no (or an empty,
hence falsy) message and a nonzero status raises `SystemExit` with that
status. -/
theorem claim_C4_exit_override :
    (∀ (prog : String) (status : Int) (m : String), m ≠ "" →
      exitParser prog status (some m) =
        .error (.invocationError
          (pyStrip (if pyStartsWith m prog then pySliceFrom m prog.length else m))) ∧
      ∀ s, exitParser prog status (some m) ≠ .error (.systemExit s)) ∧
    (∀ (prog : String) (status : Int), status ≠ 0 →
      exitParser prog status none = .error (.systemExit status) ∧
      exitParser prog status (some "") = .error (.systemExit status)) := by
  constructor
  · intro prog status m hm
    refine ⟨by simp [exitParser, hm], ?_⟩
    intro s
    simp [exitParser, hm]
  · intro prog status hs
    exact ⟨by simp [exitParser, hs], by simp [exitParser, hs]⟩

/-- Witness for C4: a concrete optparse-style error message becomes an
`InvocationError` with the `prog` marker stripped; a status-only exit
becomes `SystemExit`. -/
theorem claim_C4_exit_override_witness :
    exitParser ":" 2 (some ": error: boom\n") =
      .error (.invocationError "error: boom") ∧
    exitParser ":" 3 none = .error (.systemExit 3) := by
  constructor
  · have h := (claim_C4_exit_override.1 ":" 2 ": error: boom\n" (by decide)).1
    rw [h]
    rfl
  · exact (claim_C4_exit_override.2 ":" 3 (by decide)).1

/-- Claim C5: a non-repeatable descriptor fails with
"... can only be used once" on its second invocation within one parse and
succeeds on the first; `["--db","x","--db","y"]` fails against the
`Set`-typed `--db` but accumulates `["x","y"]` against the `Append`-typed
one; and the repeat state is per parse invocation, so two separate parses
each using `--db` once both succeed. -/
theorem claim_C5_repeatability :
    (∀ (d : AbstractOption) (os : String) (st : ParserState),
      d.repeatable = false → 1 ≤ lookupCount st.use_counts d →
      d.check_repeat os st =
        .error (.invocationError (os ++ " can only be used once"))) ∧
    (∀ (d : AbstractOption) (os : String) (st : ParserState),
      d.repeatable = false → lookupCount st.use_counts d = 0 →
      d.check_repeat os st = .ok ⟨setCount st.use_counts d 1⟩) ∧
    parse regDbSet "" false ["--db", "x", "--db", "y"] [] =
      .error (.invocationError "--db can only be used once") ∧
    parse regDbApp "" false ["--db", "x", "--db", "y"] [("db", .pylist [])] =
      .ok ([("db", .pylist [.str "x", .str "y"])], []) ∧
    parse regDbSet "" false ["--db", "x"] [] =
      .ok ([("db", .scalar (.str "x"))], []) ∧
    parse regDbSet "" false ["--db", "y"] [("db", .scalar (.str "x"))] =
      .ok ([("db", .scalar (.str "y"))], []) := by
  refine ⟨?_, ?_, rfl, rfl, rfl, rfl⟩
  · intro d os st hrep hcount
    unfold AbstractOption.check_repeat
    rw [hrep]
    have hgt : lookupCount st.use_counts d + 1 > 1 := by omega
    simp [hgt]
  · intro d os st hrep hcount
    unfold AbstractOption.check_repeat
    rw [hrep, hcount]
    simp [setCount]

/-- Witness for C5: the `Set`-typed `--db` descriptor fails its repeat check
once already used, and passes it on a fresh parser state. -/
theorem claim_C5_repeatability_witness :
    dDb.check_repeat "--db" ⟨[(dDb, 1)]⟩ =
      .error (.invocationError "--db can only be used once") ∧
    dDb.check_repeat "--db" ⟨[]⟩ = .ok ⟨[(dDb, 1)]⟩ := by
  constructor
  · exact claim_C5_repeatability.1 dDb "--db" ⟨[(dDb, 1)]⟩ rfl (by decide)
  · exact claim_C5_repeatability.2.1 dDb "--db" ⟨[]⟩ rfl rfl

/-- Claim C6: `convert` returns the configured fixed value unconditionally
(ignoring the raw text); otherwise it applies the type converter, and a
converter `ValueError` becomes an `InvocationError` whose message names the
option, the invalid text and the metavar; concretely,
`["--port", "notanumber"]` against the integer-typed `Set` option fails with
exactly that message. -/
theorem claim_C6_convert :
    (∀ (d : AbstractOption) (os : String) (v : Option String) (fixed : PyVal),
      d.value = some fixed → d.convert os v = .ok fixed) ∧
    (∀ (d : AbstractOption) (os : String) (s : String) (c : Conv) (emsg : String),
      d.value = none → d.type = some c →
      c.apply (some s) = .error (.valueError emsg) →
      d.convert os (some s) = .error (.invocationError
        (os ++ ": " ++ pyReprRaw (some s) ++ " is not a valid " ++ d.metavarStr))) ∧
    (∀ (d : AbstractOption) (os : String) (v : Option String) (c : Conv) (res : PyVal),
      d.value = none → d.type = some c → c.apply v = .ok res →
      d.convert os v = .ok res) ∧
    parse regPort "" false ["--port", "notanumber"] [] =
      .error (.invocationError "--port: 'notanumber' is not a valid INT") := by
  refine ⟨?_, ?_, ?_, rfl⟩
  · intro d os v fixed hv
    unfold AbstractOption.convert
    rw [hv]
  · intro d os s c emsg hv ht happ
    simp only [AbstractOption.convert, hv, ht, happ]
  · intro d os v c res hv ht happ
    simp only [AbstractOption.convert, hv, ht, happ]

/-- Witness for C6: fixed-value, successful-conversion and
failed-conversion cases at concrete descriptors. -/
theorem claim_C6_convert_witness :
    dVerbose.convert "-v/--verbose" (some "ignored") = .ok (.bool true) ∧
    dPort.convert "--port" (some "7") = .ok (.int 7) ∧
    dPort.convert "--port" (some "bad") =
      .error (.invocationError "--port: 'bad' is not a valid INT") := by
  refine ⟨?_, ?_, ?_⟩
  · exact claim_C6_convert.1 dVerbose "-v/--verbose" (some "ignored") (.bool true) rfl
  · exact claim_C6_convert.2.2.1 dPort "--port" (some "7") .cint (.int 7) rfl rfl rfl
  · have h := claim_C6_convert.2.1 dPort "--port" "bad" .cint
      "invalid literal for int(): bad" rfl rfl rfl
    rw [h]
    rfl

/-- Claim C7: supplying both a fixed `value` and a `type` converter, or
neither, makes descriptor construction fail with a configuration error. -/
theorem claim_C7_value_type_exclusive (klass : OptVariant) (names : List String)
    (kw : OptKw) (key : Nat)
    (h : (kw.value.isSome ∧ kw.type.isSome) ∨ (kw.value = none ∧ kw.type = none)) :
    ∃ e, makeAbstractOption klass names kw key = .error e ∧
      e.isConfigurationError = true := by
  have hvt : (kw.type.isNone == kw.value.isNone) = true := by
    rcases h with ⟨h1, h2⟩ | ⟨h1, h2⟩
    · rcases Option.isSome_iff_exists.mp h1 with ⟨a, ha⟩
      rcases Option.isSome_iff_exists.mp h2 with ⟨b, hb⟩
      rw [ha, hb]
      rfl
    · rw [h1, h2]
      rfl
  unfold makeAbstractOption
  split
  · exact ⟨_, rfl, rfl⟩
  · split
    · exact ⟨_, rfl, rfl⟩
    · exact ⟨_, rfl, rfl⟩

/-- Witness for C7: both-and-neither cases at concrete keyword sets. -/
theorem claim_C7_value_type_exclusive_witness :
    (∃ e, makeAbstractOption .set ["--x"]
      { value := some (.bool true), type := some .cstr } 90 = .error e ∧
      e.isConfigurationError = true) ∧
    (∃ e, makeAbstractOption .set ["--x"] {} 91 = .error e ∧
      e.isConfigurationError = true) :=
  ⟨claim_C7_value_type_exclusive .set ["--x"] _ 90 (.inl ⟨rfl, rfl⟩),
   claim_C7_value_type_exclusive .set ["--x"] {} 91 (.inr ⟨rfl, rfl⟩)⟩

/-- Claim C8: construction fails with a configuration error when any option
name does not start with a dash, or starts with a triple dash, or when no
option names are given at all. -/
theorem claim_C8_option_name_validation (klass : OptVariant) (names : List String)
    (kw : OptKw) (key : Nat)
    (h : names = [] ∨ ∃ n ∈ names,
      pyStartsWith n "-" = false ∨ pyStartsWith n "---" = true) :
    ∃ e, makeAbstractOption klass names kw key = .error e ∧
      e.isConfigurationError = true := by
  rcases h with rfl | ⟨n, hn, hbad⟩
  · exact ⟨_, rfl, rfl⟩
  · have hne : names.isEmpty = false := by
      cases names with
      | nil => cases hn
      | cons a l => rfl
    have hfind :
        (names.find? (fun o => !(pyStartsWith o "-") || pyStartsWith o "---")).isSome := by
      rw [List.find?_isSome]
      exact ⟨n, hn, by rcases hbad with hb | hb <;> simp [hb]⟩
    obtain ⟨bad, hbadeq⟩ := Option.isSome_iff_exists.mp hfind
    unfold makeAbstractOption
    simp only [hne, Bool.false_eq_true, if_false, hbadeq]
    exact ⟨_, rfl, rfl⟩

/-- Witness for C8: a dashless name, a triple-dash name and an empty name
list are each rejected. -/
theorem claim_C8_option_name_validation_witness :
    (∃ e, makeAbstractOption .set ["x"] { type := some .cstr } 92 = .error e ∧
      e.isConfigurationError = true) ∧
    (∃ e, makeAbstractOption .set ["---x"] { type := some .cstr } 93 = .error e ∧
      e.isConfigurationError = true) ∧
    (∃ e, makeAbstractOption .set [] { type := some .cstr } 94 = .error e ∧
      e.isConfigurationError = true) :=
  ⟨claim_C8_option_name_validation .set ["x"] _ 92
      (.inr ⟨"x", by simp, .inl (by rfl)⟩),
   claim_C8_option_name_validation .set ["---x"] _ 93
      (.inr ⟨"---x", by simp, .inr (by rfl)⟩),
   claim_C8_option_name_validation .set [] _ 94 (.inl rfl)⟩

/-- Claim C9: against the string-typed `Set` option `--name` (with the
default non-interspersed, no-auto-help configuration), parsing
`["--name", "Bob", "extra"]` returns the leftover list `["extra"]` and sets
the target's `name` attribute to `"Bob"`. -/
theorem claim_C9_round_trip (t : Target) :
    parse regName "" false ["--name", "Bob", "extra"] t =
      .ok (setattrT t "name" (.scalar (.str "Bob")), ["extra"]) ∧
    getattrT (setattrT t "name" (.scalar (.str "Bob"))) "name" =
      some (.scalar (.str "Bob")) :=
  ⟨rfl, lookupAssoc_updAssoc_self t "name" _⟩

/-- Claim C10: when the target has no attribute of the declared name, the
`Append` callback's `getattr` default hands the raw argument value itself to
`.append`, whose lookup fails with `AttributeError` (not `InvocationError`,
and before the converter is even applied, since Python evaluates the
callable before its argument) and never creates the attribute; when the
attribute holds a list, the callback extends that same list in place with
the converted value. -/
theorem claim_C10_append_missing_attribute
    (po : ParserOpt) (tgt : Target) (st : ParserState) (s a : String)
    (hvar : po.desc.variant = .append) (hattr : po.attrname = some a)
    (hrep : po.desc.repeatable = true) :
    (getattrT tgt a = none →
      invokeCallback po (some s) tgt st = .error .attributeError) ∧
    (∀ l v, getattrT tgt a = some (.pylist l) →
      po.desc.convert (ParserOpt.optString po) (some s) = .ok v →
      invokeCallback po (some s) tgt st =
        .ok (setattrT tgt a (.pylist (l ++ [v])), st)) := by
  have hcr : po.desc.check_repeat (ParserOpt.optString po) st = .ok st := by
    unfold AbstractOption.check_repeat
    rw [hrep]
    rfl
  constructor
  · intro hget
    simp only [invokeCallback, hvar, hcr, hattr, hget]
  · intro l v hget hconv
    simp only [invokeCallback, hvar, hcr, hattr, hget, hconv]

/-- The parser option `makeParser` emits for `regDbApp` (used to witness
C10). -/
def poDbApp : ParserOpt :=
  { aliases := ["--db"], nargs := 1, attrname := some "db", desc := dDbApp,
    metavar := some "STR", help := none }

/-- `Append('--port', type=int)` (key 12) and its emitted parser option,
used to witness C10's evaluation order: the `.append` lookup fails before
the integer converter, which would itself fail, ever runs. -/
def dPortApp : AbstractOption :=
  { variant := .append, option_names := ["--port"], repeatable := true
    value := none, type := some .cint, metavar := some "INT", help := none
    group := none, sortKey := 0, nargs := 1, sort_stable := 12 }

/-- The parser option `makeParser` emits for `dPortApp`. -/
def poPortApp : ParserOpt :=
  { aliases := ["--port"], nargs := 1, attrname := some "port", desc := dPortApp,
    metavar := some "INT", help := none }

theorem dPortApp_constructed :
    makeAbstractOption .append ["--port"] { type := some .cint } 12 = .ok dPortApp := rfl

/-- Witness for C10: the `Append`-typed `--db` option invoked on a target
without a `db` attribute fails with `AttributeError`; on a target whose `db`
attribute is an empty list, it appends the converted value; and on a target
without a `port` attribute, the integer-typed `Append` `--port` given
non-numeric text still fails with `AttributeError`, not the converter's
`InvocationError`. -/
theorem claim_C10_append_missing_attribute_witness :
    invokeCallback poDbApp (some "x") [] ⟨[]⟩ = .error .attributeError ∧
    invokeCallback poDbApp (some "x") [("db", .pylist [])] ⟨[]⟩ =
      .ok ([("db", .pylist [.str "x"])], ⟨[]⟩) ∧
    invokeCallback poPortApp (some "abc") [] ⟨[]⟩ = .error .attributeError := by
  refine ⟨?_, ?_, ?_⟩
  · exact (claim_C10_append_missing_attribute poDbApp [] ⟨[]⟩ "x" "db"
      rfl rfl rfl).1 rfl
  · exact (claim_C10_append_missing_attribute poDbApp [("db", Attr.pylist [])] ⟨[]⟩
      "x" "db" rfl rfl rfl).2 [] (.str "x") rfl rfl
  · exact (claim_C10_append_missing_attribute poPortApp [] ⟨[]⟩ "abc" "port"
      rfl rfl rfl).1 rfl

/-! ### Sorting lemmas -/

theorem insertSorted_perm {α : Type} (le : α → α → Bool) (x : α) (l : List α) :
    insertSorted le x l ~ x :: l := by
  induction l with
  | nil => rfl
  | cons y ys ih =>
    unfold insertSorted
    split
    · exact List.Perm.refl _
    · exact (ih.cons y).trans (List.Perm.swap x y ys)

theorem sortByLE_perm {α : Type} (le : α → α → Bool) (l : List α) :
    sortByLE le l ~ l := by
  induction l with
  | nil => rfl
  | cons x xs ih =>
    exact (insertSorted_perm le x (sortByLE le xs)).trans (ih.cons x)

theorem insertSorted_pairwise {α : Type} (le : α → α → Bool)
    (htot : ∀ a b, le a b = true ∨ le b a = true)
    (htrans : ∀ a b c, le a b = true → le b c = true → le a c = true)
    (x : α) (l : List α) (hl : l.Pairwise (fun a b => le a b = true)) :
    (insertSorted le x l).Pairwise (fun a b => le a b = true) := by
  induction l with
  | nil => simp [insertSorted]
  | cons y ys ih =>
    rcases List.pairwise_cons.mp hl with ⟨hy, hys⟩
    unfold insertSorted
    split
    case isTrue hxy =>
      refine List.pairwise_cons.mpr ⟨?_, hl⟩
      intro z hz
      rcases List.mem_cons.mp hz with rfl | hz2
      · exact hxy
      · exact htrans x y z hxy (hy z hz2)
    case isFalse hxy =>
      have hyx : le y x = true := by
        rcases htot x y with h | h
        · exact absurd h hxy
        · exact h
      refine List.pairwise_cons.mpr ⟨?_, ih hys⟩
      intro z hz
      rcases List.mem_cons.mp ((insertSorted_perm le x ys).mem_iff.mp hz) with rfl | hz2
      · exact hyx
      · exact hy z hz2

theorem sortByLE_pairwise {α : Type} (le : α → α → Bool)
    (htot : ∀ a b, le a b = true ∨ le b a = true)
    (htrans : ∀ a b c, le a b = true → le b c = true → le a c = true)
    (l : List α) : (sortByLE le l).Pairwise (fun a b => le a b = true) := by
  induction l with
  | nil => simp [sortByLE]
  | cons x xs ih => exact insertSorted_pairwise le htot htrans x _ ih

theorem keyLE_total (a b : Int × Nat) : keyLE a b = true ∨ keyLE b a = true := by
  simp only [keyLE, Bool.or_eq_true, decide_eq_true_eq, Bool.and_eq_true, beq_iff_eq]
  omega

theorem keyLE_trans (a b c : Int × Nat) :
    keyLE a b = true → keyLE b c = true → keyLE a c = true := by
  simp only [keyLE, Bool.or_eq_true, decide_eq_true_eq, Bool.and_eq_true, beq_iff_eq]
  omega

theorem perm_flatten_of_perm {α : Type} {l₁ l₂ : List (List α)} (h : l₁ ~ l₂) :
    l₁.flatten ~ l₂.flatten := by
  induction h with
  | nil => rfl
  | cons x _ ih => exact ih.append_left x
  | swap x y l =>
    simp only [List.flatten_cons]
    rw [← List.append_assoc, ← List.append_assoc]
    exact (List.perm_append_comm).append_right _
  | trans _ _ ih1 ih2 => exact ih1.trans ih2

/-! ### Bucket lemmas for the option-assembly loop -/

/-- The contents of all buckets, in bucket order. -/
def allItems (bs : List (Option Group × List ((Int × Nat) × ParserOpt))) :
    List ((Int × Nat) × ParserOpt) :=
  (bs.map Prod.snd).flatten

/-- The bucket keys (one per distinct group encountered). -/
def bucketKeys (bs : List (Option Group × List ((Int × Nat) × ParserOpt))) :
    List (Option Group) :=
  bs.map Prod.fst

theorem bucketKeys_any_iff (bs : List (Option Group × List ((Int × Nat) × ParserOpt)))
    (g : Option Group) :
    bs.any (fun p => decide (p.1 = g)) = true ↔ g ∈ bucketKeys bs := by
  rw [List.any_eq_true]
  constructor
  · rintro ⟨p, hp, hg⟩
    simp only [decide_eq_true_eq] at hg
    exact hg ▸ List.mem_map_of_mem Prod.fst hp
  · intro hg
    rcases List.mem_map.mp hg with ⟨p, hp, hg2⟩
    exact ⟨p, hp, by simp [hg2]⟩

theorem map_addToBucket_id (tl : List (Option Group × List ((Int × Nat) × ParserOpt)))
    (g : Option Group) (x : (Int × Nat) × ParserOpt) (h : g ∉ bucketKeys tl) :
    tl.map (fun p => if p.1 = g then (p.1, p.2 ++ [x]) else p) = tl := by
  induction tl with
  | nil => rfl
  | cons hd tl2 ih =>
    simp only [bucketKeys, List.map_cons, List.mem_cons] at h
    push_neg at h
    rw [List.map_cons, if_neg (Ne.symm h.1), ih (by simpa [bucketKeys] using h.2)]

theorem bucketKeys_addToBucket (acc : List (Option Group × List ((Int × Nat) × ParserOpt)))
    (g : Option Group) (x : (Int × Nat) × ParserOpt) :
    bucketKeys (addToBucket acc g x) =
      if g ∈ bucketKeys acc then bucketKeys acc else bucketKeys acc ++ [g] := by
  unfold addToBucket
  by_cases h : g ∈ bucketKeys acc
  · rw [if_pos ((bucketKeys_any_iff acc g).mpr h), if_pos h]
    unfold bucketKeys
    rw [List.map_map]
    apply List.map_congr_left
    intro p hp
    by_cases hpg : p.1 = g <;> simp [hpg]
  · rw [if_neg (fun hx => h ((bucketKeys_any_iff acc g).mp hx)), if_neg h]
    unfold bucketKeys
    rw [List.map_append]
    rfl

theorem nodup_bucketKeys_addToBucket
    (acc : List (Option Group × List ((Int × Nat) × ParserOpt)))
    (g : Option Group) (x : (Int × Nat) × ParserOpt)
    (h : (bucketKeys acc).Nodup) : (bucketKeys (addToBucket acc g x)).Nodup := by
  rw [bucketKeys_addToBucket]
  by_cases hg : g ∈ bucketKeys acc
  · rwa [if_pos hg]
  · rw [if_neg hg]
    exact h.append (List.nodup_singleton g) (by simpa [List.disjoint_singleton] using hg)

theorem allItems_addToBucket_perm
    (acc : List (Option Group × List ((Int × Nat) × ParserOpt)))
    (g : Option Group) (x : (Int × Nat) × ParserOpt)
    (hnd : (bucketKeys acc).Nodup) :
    allItems (addToBucket acc g x) ~ x :: allItems acc := by
  unfold addToBucket
  split
  case isFalse h =>
    unfold allItems
    rw [List.map_append, List.flatten_append]
    simp only [List.map_cons, List.map_nil, List.flatten_cons, List.flatten_nil,
      List.append_nil]
    exact List.perm_append_singleton x _
  case isTrue h =>
    induction acc with
    | nil => simp at h
    | cons hd tl ih =>
      have hnd2 : (bucketKeys tl).Nodup := ((List.nodup_cons.mp hnd).2)
      by_cases hk : hd.1 = g
      · have hgtl : g ∉ bucketKeys tl := hk ▸ (List.nodup_cons.mp hnd).1
        rw [List.map_cons, if_pos hk, map_addToBucket_id tl g x hgtl]
        unfold allItems
        simp only [List.map_cons, List.flatten_cons]
        exact (List.perm_append_singleton x hd.2).append_right _
      · rw [List.map_cons, if_neg hk]
        have hany : tl.any (fun p => decide (p.1 = g)) = true := by
          rcases List.any_eq_true.mp h with ⟨p, hp, hpg⟩
          simp only [decide_eq_true_eq] at hpg
          rcases List.mem_cons.mp hp with rfl | hp2
          · exact absurd hpg hk
          · exact List.any_eq_true.mpr ⟨p, hp2, by simp [hpg]⟩
        have := ih hnd2 hany
        unfold allItems at this ⊢
        simp only [List.map_cons, List.flatten_cons] at this ⊢
        exact (this.append_left hd.2).trans List.perm_middle

/-! ### The options emitted by the assembly loop, bucket structure aside -/

/-- The parser options the loop of `make_parser` emits, in registry order
(`buildLists` distributes exactly these among the group buckets). -/
def newItems (om : String → Option AbstractOption) :
    Registry → List AbstractOption → List ((Int × Nat) × ParserOpt)
  | [], _ => []
  | (_, (_, none)) :: rest, used => newItems om rest used
  | (_, (attrname, some d)) :: rest, used =>
    if d ∈ used then newItems om rest used
    else d.makeOption attrname om :: newItems om rest (used ++ [d])

theorem buildLists_keys_nodup (om : String → Option AbstractOption) :
    ∀ (L : Registry) (used : List AbstractOption)
      (acc : List (Option Group × List ((Int × Nat) × ParserOpt))),
    (bucketKeys acc).Nodup → (bucketKeys (buildLists om L used acc)).Nodup := by
  intro L
  induction L with
  | nil => exact fun _ _ h => h
  | cons hd rest ih =>
    intro used acc h
    rcases hd with ⟨k, a, opt⟩
    cases opt with
    | none => exact ih used acc h
    | some d =>
      simp only [buildLists]
      split
      · exact ih used acc h
      · exact ih _ _ (nodup_bucketKeys_addToBucket _ _ _ h)

theorem buildLists_perm (om : String → Option AbstractOption) :
    ∀ (L : Registry) (used : List AbstractOption)
      (acc : List (Option Group × List ((Int × Nat) × ParserOpt))),
    (bucketKeys acc).Nodup →
    allItems (buildLists om L used acc) ~ newItems om L used ++ allItems acc := by
  intro L
  induction L with
  | nil => exact fun _ _ _ => List.Perm.refl _
  | cons hd rest ih =>
    intro used acc h
    rcases hd with ⟨k, a, opt⟩
    cases opt with
    | none => exact ih used acc h
    | some d =>
      simp only [buildLists, newItems]
      split
      · exact ih used acc h
      · have h' := nodup_bucketKeys_addToBucket acc d.group (d.makeOption a om) h
        have hstep := ih (used ++ [d]) (addToBucket acc d.group (d.makeOption a om)) h'
        have hadd := allItems_addToBucket_perm acc d.group (d.makeOption a om) h
        exact (hstep.trans (hadd.append_left _)).trans List.perm_middle

/-- Count of parser options carrying descriptor `d`. -/
def descCount (d : AbstractOption) (l : List ((Int × Nat) × ParserOpt)) : Nat :=
  l.countP (fun x => decide (x.2.desc = d))

/-- Whether a registry view has a surviving (non-suppressed) entry whose
descriptor is `d`. -/
def descOccurs (d : AbstractOption) (L : Registry) : Bool :=
  L.any (fun p => decide (p.2.2 = some d))

theorem newItems_count (om : String → Option AbstractOption) (d : AbstractOption) :
    ∀ (L : Registry) (used : List AbstractOption),
    descCount d (newItems om L used) =
      if descOccurs d L = true ∧ d ∉ used then 1 else 0 := by
  intro L
  induction L with
  | nil => intro used; simp [newItems, descCount, descOccurs]
  | cons hd rest ih =>
    intro used
    rcases hd with ⟨k, a, opt⟩
    cases opt with
    | none =>
      simp only [newItems]
      rw [ih used]
      have hocc : descOccurs d ((k, (a, none)) :: rest) = descOccurs d rest := by
        simp [descOccurs]
      rw [hocc]
    | some d' =>
      simp only [newItems]
      split
      case isTrue hmem =>
        rw [ih used]
        by_cases hdd : d' = d
        · subst hdd
          simp [hmem]
        · have hocc : descOccurs d ((k, (a, some d')) :: rest) = descOccurs d rest := by
            simp [descOccurs, hdd]
          rw [hocc]
      case isFalse hmem =>
        simp only [descCount, List.countP_cons]
        have h1 := ih (used ++ [d'])
        rw [descCount] at h1
        rw [h1]
        by_cases hdd : d' = d
        · subst hdd
          simp [AbstractOption.makeOption, descOccurs, hmem]
        · have hne : ¬d = d' := fun hx => hdd hx.symm
          have hc1 : (d ∈ used ++ [d']) ↔ (d ∈ used) := by
            simp [List.mem_append, hne]
          have hocchead :
              descOccurs d ((k, (a, some d')) :: rest) = descOccurs d rest := by
            simp [descOccurs, hdd]
          have hiff : (descOccurs d rest = true ∧ d ∉ used ++ [d']) ↔
              (descOccurs d ((k, (a, some d')) :: rest) = true ∧ d ∉ used) := by
            rw [hocchead]
            exact and_congr Iff.rfl (not_congr hc1)
          have hhead :
              (if (decide ((d'.makeOption a om).2.desc = d) = true) then (1 : Nat)
                else 0) = 0 :=
            if_neg (by simp [AbstractOption.makeOption, hdd])
          rw [hhead, Nat.add_zero, if_congr hiff rfl rfl]

theorem newItems_shape (om : String → Option AbstractOption) :
    ∀ (L : Registry) (used : List AbstractOption)
      (x : (Int × Nat) × ParserOpt), x ∈ newItems om L used →
    ∃ d a, x = AbstractOption.makeOption d a om := by
  intro L
  induction L with
  | nil => intro used x hx; simp [newItems] at hx
  | cons hd rest ih =>
    intro used x hx
    rcases hd with ⟨k, a, opt⟩
    cases opt with
    | none => exact ih used x hx
    | some d =>
      simp only [newItems] at hx
      split at hx
      · exact ih used x hx
      · rcases List.mem_cons.mp hx with rfl | hx2
        · exact ⟨d, a, rfl⟩
        · exact ih _ x hx2

/-! ### From buckets to the synthesized parser -/

theorem flatten_map_perm_pointwise {α β : Type} (L : List α) (f g : α → List β)
    (h : ∀ p ∈ L, f p ~ g p) : (L.map f).flatten ~ (L.map g).flatten := by
  induction L with
  | nil => rfl
  | cons hd tl ih =>
    simp only [List.map_cons, List.flatten_cons]
    exact (h hd (List.mem_cons_self hd tl)).append
      (ih (fun p hp => h p (List.mem_cons_of_mem hd hp)))

theorem flatten_filterMap_split {γ : Type} (L : List (Option Group × List γ)) :
    (L.filterMap (fun p => if p.1.isNone then some p.2 else none)).flatten ++
      (L.filterMap (fun p => p.1.map (fun _ => p.2))).flatten ~
      (L.map Prod.snd).flatten := by
  induction L with
  | nil => rfl
  | cons hd tl ih =>
    cases hg : hd.1 with
    | none =>
      simp only [List.filterMap_cons, hg, Option.isNone_none, if_pos, Option.map_none',
        List.flatten_cons, List.map_cons, List.append_assoc]
      exact ih.append_left hd.2
    | some g =>
      simp only [List.filterMap_cons, hg, Option.isNone_some, Option.map_some',
        List.flatten_cons, List.map_cons]
      calc
        (tl.filterMap (fun p => if p.1.isNone then some p.2 else none)).flatten ++
            (hd.2 ++ (tl.filterMap (fun p => p.1.map (fun _ => p.2))).flatten)
            = ((tl.filterMap (fun p => if p.1.isNone then some p.2 else none)).flatten ++
              hd.2) ++ (tl.filterMap (fun p => p.1.map (fun _ => p.2))).flatten := by
              rw [List.append_assoc]
        _ ~ (hd.2 ++
              (tl.filterMap (fun p => if p.1.isNone then some p.2 else none)).flatten) ++
              (tl.filterMap (fun p => p.1.map (fun _ => p.2))).flatten :=
              List.perm_append_comm.append_right _
        _ = hd.2 ++
              ((tl.filterMap (fun p => if p.1.isNone then some p.2 else none)).flatten ++
              (tl.filterMap (fun p => p.1.map (fun _ => p.2))).flatten) := by
              rw [List.append_assoc]
        _ ~ hd.2 ++ (tl.map Prod.snd).flatten := ih.append_left hd.2

theorem synth_components_perm
    (lists : List (Option Group × List ((Int × Nat) × ParserOpt))) :
    ((lists.map (fun p => (p.1, (sortByLE itemLE p.2).map Prod.snd))).filterMap
        (fun p => if p.1.isNone then some p.2 else none)).flatten ++
      (((sortByLE grpLE
          ((lists.map (fun p => (p.1, (sortByLE itemLE p.2).map Prod.snd))).filterMap
            (fun p => p.1.map (fun g => ((g.sortKey, g.sort_stable), (g, p.2)))))).map
          Prod.snd).map Prod.snd).flatten ~
      (allItems lists).map Prod.snd := by
  set processed := lists.map (fun p => (p.1, (sortByLE itemLE p.2).map Prod.snd))
    with hproc
  set groups0 := processed.filterMap
      (fun p => p.1.map (fun g => ((g.sortKey, g.sort_stable), (g, p.2)))) with hg0
  have hmapmap : ((sortByLE grpLE groups0).map Prod.snd).map Prod.snd =
      (sortByLE grpLE groups0).map (fun x => x.2.2) := by
    rw [List.map_map]
    rfl
  have hsortperm : (sortByLE grpLE groups0).map (fun x => x.2.2) ~
      groups0.map (fun x => x.2.2) := (sortByLE_perm grpLE groups0).map _
  have hg0map : groups0.map (fun x => x.2.2) =
      processed.filterMap (fun p => p.1.map (fun _ => p.2)) := by
    rw [hg0, List.map_filterMap]
    congr 1
    funext p
    rw [Option.map_map]
    rfl
  have hpm : processed.map Prod.snd =
      lists.map (fun p => (sortByLE itemLE p.2).map Prod.snd) := by
    rw [hproc, List.map_map]
    rfl
  have hpoint : (lists.map (fun p => (sortByLE itemLE p.2).map Prod.snd)).flatten ~
      (lists.map (fun p => p.2.map Prod.snd)).flatten :=
    flatten_map_perm_pointwise lists _ _
      (fun p _ => (sortByLE_perm itemLE p.2).map Prod.snd)
  have hfinal : (lists.map (fun p => p.2.map Prod.snd)).flatten =
      (allItems lists).map Prod.snd := by
    unfold allItems
    rw [List.map_flatten, List.map_map]
    rfl
  calc
    (processed.filterMap (fun p => if p.1.isNone then some p.2 else none)).flatten ++
        (((sortByLE grpLE groups0).map Prod.snd).map Prod.snd).flatten
        ~ (processed.filterMap (fun p => if p.1.isNone then some p.2 else none)).flatten ++
          (processed.filterMap (fun p => p.1.map (fun _ => p.2))).flatten := by
          refine List.Perm.append_left _ ?_
          rw [hmapmap, ← hg0map]
          exact perm_flatten_of_perm hsortperm
    _ ~ (processed.map Prod.snd).flatten := flatten_filterMap_split processed
    _ = (lists.map (fun p => (sortByLE itemLE p.2).map Prod.snd)).flatten := by rw [hpm]
    _ ~ (lists.map (fun p => p.2.map Prod.snd)).flatten := hpoint
    _ = (allItems lists).map Prod.snd := hfinal

theorem makeParser_allPopts_perm (optinfo : Registry) (prog : String) (b : Bool) :
    allPopts (makeParser optinfo prog b) ~
      (allItems (buildLists (optmapGet optinfo) optinfo [] [])).map Prod.snd :=
  synth_components_perm (buildLists (optmapGet optinfo) optinfo [] [])

/-- Claim C1: for every descriptor with a surviving entry in the merged
registry view, the built parser contains exactly one option for that
descriptor, and its alias list is exactly those of the descriptor's names
that the merged view still maps to this very descriptor (neither suppressed
nor overridden); concretely, `B` (which suppresses `--verbose` but inherits
`A`'s shared `-v`/`--verbose` descriptor) renders one option whose aliases
are just `["-v"]`, so its help does not mention `--verbose`, while `A`'s
still does. -/
theorem claim_C1_dedup_and_suppression :
    (∀ (optinfo : Registry) (prog : String) (b : Bool) (d : AbstractOption),
      (∃ k a, (k, (a, some d)) ∈ optinfo) →
      ((allPopts (makeParser optinfo prog b)).countP
        (fun po => decide (po.desc = d))) = 1 ∧
      (∀ po ∈ allPopts (makeParser optinfo prog b), po.desc = d →
        po.aliases = d.option_names.filter
          (fun o => decide (optmapGet optinfo o = some d)))) ∧
    getHelpMentions (makeParser regB "" false) "--verbose" = false ∧
    getHelpMentions (makeParser regB "" false) "-v" = true ∧
    getHelpMentions (makeParser regA "" false) "--verbose" = true ∧
    renderedAliases (makeParser regB "" false) = [["-v"]] := by
  refine ⟨?_, rfl, rfl, rfl, rfl⟩
  intro optinfo prog b d hocc
  have hperm := makeParser_allPopts_perm optinfo prog b
  have hLperm := buildLists_perm (optmapGet optinfo) optinfo [] []
    (by simp [bucketKeys])
  have hoccB : descOccurs d optinfo = true := by
    rcases hocc with ⟨k, a, hk⟩
    exact List.any_eq_true.mpr ⟨(k, (a, some d)), hk, by simp⟩
  constructor
  · rw [hperm.countP_eq, List.countP_map]
    show descCount d (allItems (buildLists (optmapGet optinfo) optinfo [] [])) = 1
    have h2 : descCount d (allItems (buildLists (optmapGet optinfo) optinfo [] [])) =
        descCount d (newItems (optmapGet optinfo) optinfo [] ++ allItems []) :=
      hLperm.countP_eq _
    rw [h2]
    have h4 : newItems (optmapGet optinfo) optinfo [] ++ allItems [] =
        newItems (optmapGet optinfo) optinfo [] := by
      simp [allItems]
    rw [h4, newItems_count (optmapGet optinfo) d optinfo []]
    simp [hoccB]
  · intro po hpo hdesc
    have hpo2 := hperm.mem_iff.mp hpo
    rcases List.mem_map.mp hpo2 with ⟨x, hx, rfl⟩
    have hx2 := hLperm.mem_iff.mp hx
    have hx3 : x ∈ newItems (optmapGet optinfo) optinfo [] := by
      simpa [allItems] using hx2
    rcases newItems_shape (optmapGet optinfo) optinfo [] x hx3 with ⟨d', a, rfl⟩
    have hdd : d' = d := hdesc
    subst hdd
    rfl

/-- The sort key recoverable from an emitted parser option: its
descriptor's `(sortKey, creation_order)`. -/
def popKey (po : ParserOpt) : Int × Nat := (po.desc.sortKey, po.desc.sort_stable)

/-- A group's `(sortKey, creation_order)`. -/
def grpKey (g : Group) : Int × Nat := (g.sortKey, g.sort_stable)

theorem sorted_bucket_pairwise (om : String → Option AbstractOption)
    (lists : List (Option Group × List ((Int × Nat) × ParserOpt)))
    (hshape : ∀ x ∈ allItems lists, ∃ d a, x = AbstractOption.makeOption d a om)
    (bucket : Option Group × List ((Int × Nat) × ParserOpt)) (hb : bucket ∈ lists) :
    ((sortByLE itemLE bucket.2).map Prod.snd).Pairwise
      (fun x y => keyLE (popKey x) (popKey y) = true) := by
  rw [List.pairwise_map]
  have hsorted := sortByLE_pairwise itemLE
    (fun a b => keyLE_total a.1 b.1) (fun a b c => keyLE_trans a.1 b.1 c.1) bucket.2
  refine hsorted.imp_of_mem ?_
  intro x y hx hy hxy
  have hxmem : x ∈ allItems lists :=
    List.mem_flatten.mpr ⟨bucket.2, List.mem_map_of_mem Prod.snd hb,
      (sortByLE_perm itemLE bucket.2).mem_iff.mp hx⟩
  have hymem : y ∈ allItems lists :=
    List.mem_flatten.mpr ⟨bucket.2, List.mem_map_of_mem Prod.snd hb,
      (sortByLE_perm itemLE bucket.2).mem_iff.mp hy⟩
  rcases hshape x hxmem with ⟨dx, ax, rfl⟩
  rcases hshape y hymem with ⟨dy, ay, rfl⟩
  exact hxy

theorem filterMap_isNone_small {γ : Type} :
    ∀ (L : List (Option Group × γ)), (L.map Prod.fst).Nodup →
    L.filterMap (fun p => if p.1.isNone then some p.2 else none) = [] ∨
    ∃ p, p ∈ L ∧
      L.filterMap (fun p => if p.1.isNone then some p.2 else none) = [p.2] := by
  intro L
  induction L with
  | nil => exact fun _ => .inl rfl
  | cons hd tl ih =>
    intro h
    rcases List.nodup_cons.mp h with ⟨hmem, hnd⟩
    cases hg : hd.1 with
    | some g =>
      have hstep : (hd :: tl).filterMap
          (fun p => if p.1.isNone then some p.2 else none) =
          tl.filterMap (fun p => if p.1.isNone then some p.2 else none) := by
        simp [List.filterMap_cons, hg]
      rcases ih hnd with h0 | ⟨p, hp, heq⟩
      · left
        rw [hstep, h0]
      · right
        exact ⟨p, List.mem_cons_of_mem hd hp, by rw [hstep, heq]⟩
    | none =>
      have htl : tl.filterMap (fun p => if p.1.isNone then some p.2 else none) = [] := by
        rw [List.filterMap_eq_nil_iff]
        intro p hp
        have hne : p.1 ≠ none := by
          intro hc
          apply hmem
          rw [hg]
          exact hc ▸ List.mem_map_of_mem Prod.fst hp
        cases hpp : p.1 with
        | none => exact absurd hpp hne
        | some gg => simp [hpp]
      right
      refine ⟨hd, List.mem_cons_self hd tl, ?_⟩
      have hfa : (fun p : Option Group × γ =>
          if p.1.isNone then some p.2 else none) hd = some hd.2 := by
        simp [hg]
      rw [@List.filterMap_cons_some (Option Group × γ) γ
        (fun p => if p.1.isNone then some p.2 else none) hd tl hd.2 hfa, htl]

theorem groups0_coherent
    (processed : List (Option Group × List ParserOpt))
    (x : (Int × Nat) × (Group × List ParserOpt))
    (hx : x ∈ processed.filterMap
      (fun p => p.1.map (fun g => ((g.sortKey, g.sort_stable), (g, p.2))))) :
    x.1 = grpKey x.2.1 := by
  rcases List.mem_filterMap.mp hx with ⟨p, _, hf⟩
  cases hg : p.1 with
  | none => rw [hg] at hf; cases hf
  | some g' =>
    rw [hg] at hf
    simp only [Option.map_some', Option.some.injEq] at hf
    rw [← hf]
    rfl

theorem groups0_mem_opts
    (processed : List (Option Group × List ParserOpt))
    (key : Int × Nat) (g : Group) (opts : List ParserOpt)
    (hx : (key, (g, opts)) ∈ processed.filterMap
      (fun p => p.1.map (fun g => ((g.sortKey, g.sort_stable), (g, p.2))))) :
    ∃ p ∈ processed, opts = p.2 := by
  rcases List.mem_filterMap.mp hx with ⟨p, hp, hf⟩
  cases hg : p.1 with
  | none => rw [hg] at hf; cases hf
  | some g' =>
    rw [hg] at hf
    simp only [Option.map_some', Option.some.injEq, Prod.mk.injEq] at hf
    exact ⟨p, hp, hf.2.2.symm⟩

/-- Claim C3: in the parser built by `make_parser`, the options within each
group bucket and within the ungrouped (parser-level) bucket are ordered
ascending by `(sortKey, creationOrder)`, and the groups themselves are
ordered ascending by `(sortKey, creationOrder)`; concretely, with groups of
sort keys 5 and 1 plus an ungrouped option, the sort-key-1 group's options
render before the sort-key-5 group's, and the ungrouped option renders
directly on the parser ahead of every group section. -/
theorem claim_C3_ordering :
    (∀ (optinfo : Registry) (prog : String) (b : Bool),
      (makeParser optinfo prog b).parser_options.Pairwise
        (fun x y => keyLE (popKey x) (popKey y) = true) ∧
      (∀ g opts, (g, opts) ∈ (makeParser optinfo prog b).groups →
        opts.Pairwise (fun x y => keyLE (popKey x) (popKey y) = true)) ∧
      (makeParser optinfo prog b).groups.Pairwise
        (fun x y => keyLE (grpKey x.1) (grpKey y.1) = true)) ∧
    (makeParser regGroups "" false).groups.map (fun p => p.1.title) =
      ["One", "Five"] ∧
    renderedAliases (makeParser regGroups "" false) =
      [["--loose"], ["--one"], ["--five"]] := by
  refine ⟨?_, rfl, rfl⟩
  intro optinfo prog b
  have hshape : ∀ x ∈ allItems (buildLists (optmapGet optinfo) optinfo [] []),
      ∃ d a, x = AbstractOption.makeOption d a (optmapGet optinfo) := by
    intro x hx
    have hLperm := buildLists_perm (optmapGet optinfo) optinfo [] []
      (by simp [bucketKeys])
    have hx3 : x ∈ newItems (optmapGet optinfo) optinfo [] := by
      simpa [allItems] using hLperm.mem_iff.mp hx
    exact newItems_shape (optmapGet optinfo) optinfo [] x hx3
  have hnodup : (bucketKeys (buildLists (optmapGet optinfo) optinfo [] [])).Nodup :=
    buildLists_keys_nodup (optmapGet optinfo) optinfo [] [] (by simp [bucketKeys])
  have hpar : (makeParser optinfo prog b).parser_options =
      (((buildLists (optmapGet optinfo) optinfo [] []).map
          (fun p => (p.1, (sortByLE itemLE p.2).map Prod.snd))).filterMap
        (fun p => if p.1.isNone then some p.2 else none)).flatten := rfl
  have hgr : (makeParser optinfo prog b).groups =
      (sortByLE grpLE
        (((buildLists (optmapGet optinfo) optinfo [] []).map
            (fun p => (p.1, (sortByLE itemLE p.2).map Prod.snd))).filterMap
          (fun p => p.1.map (fun g => ((g.sortKey, g.sort_stable), (g, p.2)))))).map
        Prod.snd := rfl
  have hkeys : (((buildLists (optmapGet optinfo) optinfo [] []).map
      (fun p => (p.1, (sortByLE itemLE p.2).map Prod.snd))).map Prod.fst).Nodup := by
    rw [List.map_map]
    exact hnodup
  refine ⟨?_, ?_, ?_⟩
  · rw [hpar]
    rcases filterMap_isNone_small _ hkeys with h0 | ⟨p, hp, heq⟩
    · rw [h0]
      exact List.Pairwise.nil
    · rw [heq]
      simp only [List.flatten_cons, List.flatten_nil, List.append_nil]
      rcases List.mem_map.mp hp with ⟨q, hq, rfl⟩
      exact sorted_bucket_pairwise (optmapGet optinfo) _ hshape q hq
  · intro g opts hmem
    rw [hgr] at hmem
    rcases List.mem_map.mp hmem with ⟨x, hxmem, hxeq⟩
    have hxmem2 := (sortByLE_perm grpLE _).mem_iff.mp hxmem
    rcases x with ⟨key, gg, oo⟩
    simp only at hxeq
    cases hxeq
    rcases groups0_mem_opts _ key g opts hxmem2 with ⟨p, hp, rfl⟩
    rcases List.mem_map.mp hp with ⟨q, hq, rfl⟩
    exact sorted_bucket_pairwise (optmapGet optinfo) _ hshape q hq
  · rw [hgr, List.pairwise_map]
    refine (sortByLE_pairwise grpLE
      (fun a b => keyLE_total a.1 b.1)
      (fun a b c => keyLE_trans a.1 b.1 c.1) _).imp_of_mem ?_
    intro x y hx hy hxy
    have hcx := groups0_coherent _ x ((sortByLE_perm grpLE _).mem_iff.mp hx)
    have hcy := groups0_coherent _ y ((sortByLE_perm grpLE _).mem_iff.mp hy)
    rw [← hcx, ← hcy]
    exact hxy

/-- The parser option `makeParser` emits for `dOne` in the grouping
scenario (used to witness C3). -/
def poOne : ParserOpt :=
  { aliases := ["--one"], nargs := 0, attrname := some "one", desc := dOne,
    metavar := none, help := none }

/-- Witness for C3 at the concrete grouping registry: the ungrouped options
and the group list are sorted, and the sort-key-1 group's option list
(looked up by concrete membership) is sorted. -/
theorem claim_C3_ordering_witness :
    (makeParser regGroups "" false).parser_options.Pairwise
      (fun x y => keyLE (popKey x) (popKey y) = true) ∧
    (makeParser regGroups "" false).groups.Pairwise
      (fun x y => keyLE (grpKey x.1) (grpKey y.1) = true) ∧
    ([poOne] : List ParserOpt).Pairwise
      (fun x y => keyLE (popKey x) (popKey y) = true) :=
  ⟨(claim_C3_ordering.1 regGroups "" false).1,
   (claim_C3_ordering.1 regGroups "" false).2.2,
   (claim_C3_ordering.1 regGroups "" false).2.1 gOne [poOne] (by decide)⟩

/-- Witness for C1: the shared `-v`/`--verbose` descriptor of class `A`
appears exactly once in `B`'s parser, with aliases reduced to the surviving
names. -/
theorem claim_C1_dedup_and_suppression_witness :
    ((allPopts (makeParser regB "" false)).countP
      (fun po => decide (po.desc = dVerbose))) = 1 ∧
    (∀ po ∈ allPopts (makeParser regB "" false), po.desc = dVerbose →
      po.aliases = dVerbose.option_names.filter
        (fun o => decide (optmapGet regB o = some dVerbose))) :=
  claim_C1_dedup_and_suppression.1 regB "" false dVerbose
    ⟨"-v", some "verbose", by decide⟩

end Peak
